import Mathlib

/-!
Verification of the placement state machine of the Diamond Quest repository.

The data model (`DiamondPiece`, `BoardSlot`, `GameState`) is embedded from
`src/types.ts`; the registry generators (`generateBoardSlots`,
`generateDiamondPieces`, `createInitialGameState`) from `src/gameStateUtils.ts`;
the controller operations (`startDrag`, `updateDragPosition`, `endDrag`,
`resetBoard`) and the hover resolver (`detectHoveredSlot`) from `src/App.tsx`.

Spatial coordinates are modelled as real numbers (the board slot layout is
rotated by 45 degrees, so slot coordinates are irrational).  Numeric literals
of the source (1.2, 0.8, 1.5, ...) are carried as exact rationals or reals.
The `justDroppedRef` timer flag of `App.tsx` is passed to `startDrag` as an
explicit boolean argument (its timer-based clearing is real-time behaviour and
is outside the state machine itself).
-/

namespace DiamondQuest

/-- A 3D coordinate, as `THREE.Vector3` is used by the game code. -/
structure Vector3 where
  x : ℝ
  y : ℝ
  z : ℝ

/-- Piece colors, from `src/types.ts` (`PieceColor`). -/
inductive PieceColor
  | orange
  | yellow
  | green
  | blue
  | red
deriving DecidableEq, Repr

/-- Piece shapes, from `src/types.ts` (`PieceShape`). -/
inductive PieceShape
  | round
  | triangular
  | square
deriving DecidableEq, Repr

/-- A diamond piece, from `src/types.ts` (`DiamondPiece`).  The
`originalPosition` field models the ad-hoc temporary property that
`startDrag` in `App.tsx` attaches to the dragged piece record. -/
structure Piece where
  id : String
  color : PieceColor
  shape : PieceShape
  position : Vector3
  slotId : Option String
  stagingPosition : Vector3
  originalPosition : Option Vector3

/-- A board slot, from `src/types.ts` (`BoardSlot`). -/
structure Slot where
  id : String
  position : Vector3
  occupied : Bool
  pieceId : Option String

/-- The aggregate game state, from `src/types.ts` (`GameState`). -/
structure GameState where
  pieces : List Piece
  slots : List Slot
  draggedPiece : Option String
  hoveredSlot : Option String
  hoveredPiece : Option String

/-- The hover acceptance radius (`hoverThreshold` in `App.tsx`). -/
noncomputable def hoverThreshold : ℝ := 0.8

/-- Ground-plane distance between a cursor position and a slot: only the
x and z coordinates are considered, as in `detectHoveredSlot` of `App.tsx`. -/
noncomputable def slotDistance (position : Vector3) (slot : Slot) : ℝ :=
  let dx := position.x - slot.position.x
  let dz := position.z - slot.position.z
  Real.sqrt (dx * dx + dz * dz)

open Classical in
/-- `detectHoveredSlot` from `App.tsx`: scan the slots in registry order and
return the first one whose ground-plane distance to the cursor is below the
threshold, or `none`. -/
noncomputable def detectHoveredSlot (position : Vector3) :
    List Slot → Option Slot
  | [] => none
  | slot :: rest =>
    if slotDistance position slot < hoverThreshold then some slot
    else detectHoveredSlot position rest

/-- The per-piece body of the map in `updateDragPosition`: the dragged piece
follows the cursor and stays elevated at y = 1.0. -/
def movePiece (did : String) (ix iz : ℝ) (p : Piece) : Piece :=
  if p.id == did then { p with position := ⟨ix, 1.0, iz⟩ } else p

/-- `updateDragPosition` from `App.tsx`, taking the resolved ground-plane
intersection point (the ray-plane collaborator is outside the core): if no
drag is active, no-op; otherwise move the dragged piece to the cursor at the
fixed elevation 1.0 and recompute the hovered slot. -/
noncomputable def updateDragPosition (ix iz : ℝ) (s : GameState) : GameState :=
  match s.draggedPiece with
  | none => s
  | some did =>
    let updatedPieces := s.pieces.map (movePiece did ix iz)
    let hovered := detectHoveredSlot ⟨ix, 0, iz⟩ s.slots
    { s with pieces := updatedPieces, hoveredSlot := hovered.map Slot.id }

/-- The per-piece body of the map in `startDrag`: the clicked piece is
elevated by +1.0, its slot reference is cleared and its original position is
stashed. -/
def liftPiece (pieceId : String) (originalPosition : Vector3) (p : Piece) :
    Piece :=
  if p.id == pieceId then
    { p with
      position := ⟨p.position.x, p.position.y + 1.0, p.position.z⟩,
      slotId := none,
      originalPosition := some originalPosition }
  else p

/-- The per-slot body of the slot-clearing map in `startDrag`: the slot the
piece came from is marked unoccupied. -/
def clearSlot (sid : String) (sl : Slot) : Slot :=
  if sl.id == sid then { sl with occupied := false, pieceId := none } else sl

/-- `startDrag` from `App.tsx`.  `justDropped` is the `justDroppedRef` guard
flag; when it is set the call returns the state unchanged.  Otherwise: if the
piece id is unknown, no-op; else clear the slot the piece occupies (if any),
clear the piece's `slotId`, elevate the piece by +1.0, remember its original
position, and mark it as dragged. -/
def startDrag (justDropped : Bool) (pieceId : String) (s : GameState) :
    GameState :=
  if justDropped then s
  else
    match s.pieces.find? (fun p => p.id == pieceId) with
    | none => s
    | some piece =>
      let updatedSlots :=
        match piece.slotId with
        | some sid => s.slots.map (clearSlot sid)
        | none => s.slots
      let updatedPieces := s.pieces.map (liftPiece pieceId piece.position)
      { s with
        pieces := updatedPieces,
        slots := updatedSlots,
        draggedPiece := some pieceId }

/-- The per-piece body of the rollback map in `endDrag`: the dragged piece
returns to its staging position and keeps no slot reference. -/
def rollbackPiece (did : String) (p : Piece) : Piece :=
  if p.id == did then
    { p with position := p.stagingPosition, slotId := none }
  else p

/-- The per-piece body of the commit map in `endDrag`: the dragged piece
snaps to the hovered slot's exact position and references it. -/
def snapPiece (did : String) (hsl : Slot) (p : Piece) : Piece :=
  if p.id == did then
    { p with position := hsl.position, slotId := some hsl.id }
  else p

/-- The per-slot body of the commit map in `endDrag`: the hovered slot is
marked occupied by the dragged piece. -/
def occupySlot (did : String) (hslId : String) (sl : Slot) : Slot :=
  if sl.id == hslId then
    { sl with occupied := true, pieceId := some did }
  else sl

/-- `endDrag` from `App.tsx`: if no drag is active (or the dragged id is
unknown), no-op.  Otherwise the drop is valid iff a hovered slot resolves and
is unoccupied; on a valid drop snap the piece to the slot and link both sides;
otherwise return the piece to its staging position.  In both branches clear
`draggedPiece` and `hoveredSlot`. -/
def endDrag (s : GameState) : GameState :=
  match s.draggedPiece with
  | none => s
  | some did =>
    match s.pieces.find? (fun p => p.id == did) with
    | none => s
    | some _ =>
      match s.hoveredSlot.bind
          (fun hid => s.slots.find? (fun sl => sl.id == hid)) with
      | some hsl =>
        if hsl.occupied then
          { s with
            pieces := s.pieces.map (rollbackPiece did),
            draggedPiece := none,
            hoveredSlot := none }
        else
          { s with
            pieces := s.pieces.map (snapPiece did hsl),
            slots := s.slots.map (occupySlot did hsl.id),
            draggedPiece := none,
            hoveredSlot := none }
      | none =>
        { s with
          pieces := s.pieces.map (rollbackPiece did),
          draggedPiece := none,
          hoveredSlot := none }

/-- The per-piece body of the map in `resetBoard`. -/
def resetPiece (p : Piece) : Piece :=
  { p with position := p.stagingPosition, slotId := none }

/-- The per-slot body of the map in `resetBoard`. -/
def resetSlot (sl : Slot) : Slot :=
  { sl with occupied := false, pieceId := none }

/-- `resetBoard` from `App.tsx`: every piece back to its staging position with
no slot reference, every slot cleared, all interaction state cleared. -/
def resetBoard (s : GameState) : GameState :=
  { s with
    pieces := s.pieces.map resetPiece,
    slots := s.slots.map resetSlot,
    draggedPiece := none,
    hoveredSlot := none,
    hoveredPiece := none }

/-- Slot spacing (1.2 units between slot centers), from `generateBoardSlots`. -/
def spacing : ℚ := 1.2

/-- The unrotated slot grid of `generateBoardSlots` in `src/gameStateUtils.ts`:
13 ids with their (x, z) coordinates in the 1-3-5-3-1 diamond layout. -/
def slotGrid : List (String × ℚ × ℚ) :=
  [("slot-1", 0, spacing * 2),
   ("slot-2", -spacing, spacing),
   ("slot-3", 0, spacing),
   ("slot-4", spacing, spacing),
   ("slot-5", -spacing * 2, 0),
   ("slot-6", -spacing, 0),
   ("slot-7", 0, 0),
   ("slot-8", spacing, 0),
   ("slot-9", spacing * 2, 0),
   ("slot-10", -spacing, -spacing),
   ("slot-11", 0, -spacing),
   ("slot-12", spacing, -spacing),
   ("slot-13", 0, -spacing * 2)]

/-- The x component after the 45-degree rotation applied by
`generateBoardSlots`. -/
noncomputable def rotatedX (x z : ℚ) : ℝ :=
  (x : ℝ) * Real.cos (Real.pi / 4) - (z : ℝ) * Real.sin (Real.pi / 4)

/-- The z component after the 45-degree rotation applied by
`generateBoardSlots`. -/
noncomputable def rotatedZ (x z : ℚ) : ℝ :=
  (x : ℝ) * Real.sin (Real.pi / 4) + (z : ℝ) * Real.cos (Real.pi / 4)

/-- Build one board slot from a grid entry, as `generateBoardSlots` does:
rotate the grid coordinates, y = 0, initially unoccupied. -/
noncomputable def mkBoardSlot (e : String × ℚ × ℚ) : Slot :=
  { id := e.1,
    position := { x := rotatedX e.2.1 e.2.2, y := 0, z := rotatedZ e.2.1 e.2.2 },
    occupied := false,
    pieceId := none }

/-- `generateBoardSlots` from `src/gameStateUtils.ts`. -/
noncomputable def generateBoardSlots : List Slot := slotGrid.map mkBoardSlot

/-- String form of a color, as used in the piece id template string. -/
def PieceColor.str : PieceColor → String
  | .orange => "orange"
  | .yellow => "yellow"
  | .green => "green"
  | .blue => "blue"
  | .red => "red"

/-- String form of a shape, as used in the piece id template string. -/
def PieceShape.str : PieceShape → String
  | .round => "round"
  | .triangular => "triangular"
  | .square => "square"

/-- The shape groups of `generateDiamondPieces`: shape, its color list, and
the staging row offset. -/
def shapeGroups : List (PieceShape × List PieceColor × ℕ) :=
  [(.round, [.orange, .yellow, .green, .blue, .red], 0),
   (.triangular, [.orange, .yellow, .green, .blue], 1),
   (.square, [.orange, .yellow, .green, .blue], 2)]

/-- Staging area layout constants of `generateDiamondPieces`. -/
def stagingBaseX : ℚ := 6

/-- Staging area base y (board level). -/
def stagingBaseY : ℚ := 0

/-- Staging area base z. -/
def stagingBaseZ : ℚ := 2

/-- Spacing between staged pieces. -/
def pieceSpacing : ℚ := 1.5

/-- Build one piece from its shape group data and color index, as
`generateDiamondPieces` does. -/
noncomputable def mkPiece (shape : PieceShape) (rowOffset : ℕ)
    (colorIndex : ℕ) (color : PieceColor) : Piece :=
  let x : ℚ := stagingBaseX + colorIndex * pieceSpacing
  let y : ℚ := stagingBaseY
  let z : ℚ := stagingBaseZ - rowOffset * (pieceSpacing * 1.5)
  let stagingPosition : Vector3 := ⟨(x : ℝ), (y : ℝ), (z : ℝ)⟩
  { id := "piece-" ++ color.str ++ "-" ++ shape.str,
    color := color,
    shape := shape,
    position := stagingPosition,
    slotId := none,
    stagingPosition := stagingPosition,
    originalPosition := none }

/-- `generateDiamondPieces` from `src/gameStateUtils.ts`: for each shape group,
one piece per color, staged in rows by shape. -/
noncomputable def generateDiamondPieces : List Piece :=
  shapeGroups.flatMap (fun g =>
    g.2.1.enum.map (fun ci => mkPiece g.1 g.2.2 ci.1 ci.2))

/-- `createInitialGameState` from `src/gameStateUtils.ts`. -/
noncomputable def createInitialGameState : GameState :=
  { pieces := generateDiamondPieces,
    slots := generateBoardSlots,
    draggedPiece := none,
    hoveredSlot := none,
    hoveredPiece := none }

/-- States reachable from the initial state through the controller
operations (`startDrag` with either value of the guard flag,
`updateDragPosition` with any resolved cursor coordinate, `endDrag`,
`resetBoard`). -/
inductive Reachable : GameState → Prop
  | init : Reachable createInitialGameState
  | start (s : GameState) (jd : Bool) (pid : String) :
      Reachable s → Reachable (startDrag jd pid s)
  | update (s : GameState) (ix iz : ℝ) :
      Reachable s → Reachable (updateDragPosition ix iz s)
  | drop (s : GameState) : Reachable s → Reachable (endDrag s)
  | reset (s : GameState) : Reachable s → Reachable (resetBoard s)

/-- The creation-time identity of a piece: id, color and shape, the fields no
operation may change. -/
def pieceKey (p : Piece) : String × PieceColor × PieceShape :=
  (p.id, p.color, p.shape)

/-- The creation-time identity of a slot: id and position. -/
def slotKey (sl : Slot) : String × Vector3 :=
  (sl.id, sl.position)

/-- The state invariant maintained by the placement controller: piece and slot
ids are unique, piece-to-slot and slot-to-piece references agree (INV-3), the
dragged piece never still references a slot, and every piece's slot reference
names a registered slot. -/
structure Inv (s : GameState) : Prop where
  pieceNodup : (s.pieces.map Piece.id).Nodup
  slotNodup : (s.slots.map Slot.id).Nodup
  bicons : ∀ p ∈ s.pieces, ∀ sl ∈ s.slots,
    (p.slotId = some sl.id ↔ sl.pieceId = some p.id ∧ sl.occupied = true)
  dragClean : ∀ p ∈ s.pieces, s.draggedPiece = some p.id → p.slotId = none
  refsValid : ∀ p ∈ s.pieces, ∀ sid ∈ p.slotId, sid ∈ s.slots.map Slot.id

theorem map_map_eq_of_key {α β : Type _} (f : α → α) (key : α → β)
    (h : ∀ a, key (f a) = key a) (l : List α) :
    (l.map f).map key = l.map key := by
  rw [List.map_map]
  exact List.map_congr_left (fun a _ => h a)

@[simp]
theorem movePiece_key (did : String) (ix iz : ℝ) (p : Piece) :
    pieceKey (movePiece did ix iz p) = pieceKey p := by
  unfold movePiece pieceKey
  split <;> rfl

@[simp]
theorem liftPiece_key (pid : String) (o : Vector3) (p : Piece) :
    pieceKey (liftPiece pid o p) = pieceKey p := by
  unfold liftPiece pieceKey
  split <;> rfl

@[simp]
theorem rollbackPiece_key (did : String) (p : Piece) :
    pieceKey (rollbackPiece did p) = pieceKey p := by
  unfold rollbackPiece pieceKey
  split <;> rfl

@[simp]
theorem snapPiece_key (did : String) (hsl : Slot) (p : Piece) :
    pieceKey (snapPiece did hsl p) = pieceKey p := by
  unfold snapPiece pieceKey
  split <;> rfl

@[simp]
theorem resetPiece_key (p : Piece) : pieceKey (resetPiece p) = pieceKey p :=
  rfl

@[simp]
theorem clearSlot_key (sid : String) (sl : Slot) :
    slotKey (clearSlot sid sl) = slotKey sl := by
  unfold clearSlot slotKey
  split <;> rfl

@[simp]
theorem occupySlot_key (did hslId : String) (sl : Slot) :
    slotKey (occupySlot did hslId sl) = slotKey sl := by
  unfold occupySlot slotKey
  split <;> rfl

@[simp]
theorem resetSlot_key (sl : Slot) : slotKey (resetSlot sl) = slotKey sl :=
  rfl

@[simp]
theorem movePiece_id (did : String) (ix iz : ℝ) (p : Piece) :
    (movePiece did ix iz p).id = p.id :=
  congrArg Prod.fst (movePiece_key did ix iz p)

@[simp]
theorem liftPiece_id (pid : String) (o : Vector3) (p : Piece) :
    (liftPiece pid o p).id = p.id :=
  congrArg Prod.fst (liftPiece_key pid o p)

@[simp]
theorem rollbackPiece_id (did : String) (p : Piece) :
    (rollbackPiece did p).id = p.id :=
  congrArg Prod.fst (rollbackPiece_key did p)

@[simp]
theorem snapPiece_id (did : String) (hsl : Slot) (p : Piece) :
    (snapPiece did hsl p).id = p.id :=
  congrArg Prod.fst (snapPiece_key did hsl p)

@[simp]
theorem resetPiece_id (p : Piece) : (resetPiece p).id = p.id :=
  rfl

@[simp]
theorem clearSlot_id (sid : String) (sl : Slot) :
    (clearSlot sid sl).id = sl.id :=
  congrArg Prod.fst (clearSlot_key sid sl)

@[simp]
theorem occupySlot_id (did hslId : String) (sl : Slot) :
    (occupySlot did hslId sl).id = sl.id :=
  congrArg Prod.fst (occupySlot_key did hslId sl)

@[simp]
theorem resetSlot_id (sl : Slot) : (resetSlot sl).id = sl.id :=
  rfl

@[simp]
theorem movePiece_slotId (did : String) (ix iz : ℝ) (p : Piece) :
    (movePiece did ix iz p).slotId = p.slotId := by
  unfold movePiece
  split <;> rfl

@[simp]
theorem movePiece_staging (did : String) (ix iz : ℝ) (p : Piece) :
    (movePiece did ix iz p).stagingPosition = p.stagingPosition := by
  unfold movePiece
  split <;> rfl

theorem liftPiece_eq (pid : String) (o : Vector3) (p : Piece)
    (h : p.id = pid) :
    liftPiece pid o p =
      { p with
        position := ⟨p.position.x, p.position.y + 1.0, p.position.z⟩,
        slotId := none,
        originalPosition := some o } := by
  unfold liftPiece
  simp [h]

theorem liftPiece_ne (pid : String) (o : Vector3) (p : Piece)
    (h : ¬p.id = pid) : liftPiece pid o p = p := by
  unfold liftPiece
  simp [h]

theorem clearSlot_eq (sid : String) (sl : Slot) (h : sl.id = sid) :
    clearSlot sid sl = { sl with occupied := false, pieceId := none } := by
  unfold clearSlot
  simp [h]

theorem clearSlot_ne (sid : String) (sl : Slot) (h : ¬sl.id = sid) :
    clearSlot sid sl = sl := by
  unfold clearSlot
  simp [h]

theorem rollbackPiece_eq (did : String) (p : Piece) (h : p.id = did) :
    rollbackPiece did p =
      { p with position := p.stagingPosition, slotId := none } := by
  unfold rollbackPiece
  simp [h]

theorem rollbackPiece_ne (did : String) (p : Piece) (h : ¬p.id = did) :
    rollbackPiece did p = p := by
  unfold rollbackPiece
  simp [h]

theorem snapPiece_eq (did : String) (hsl : Slot) (p : Piece) (h : p.id = did) :
    snapPiece did hsl p =
      { p with position := hsl.position, slotId := some hsl.id } := by
  unfold snapPiece
  simp [h]

theorem snapPiece_ne (did : String) (hsl : Slot) (p : Piece)
    (h : ¬p.id = did) : snapPiece did hsl p = p := by
  unfold snapPiece
  simp [h]

theorem occupySlot_eq (did hslId : String) (sl : Slot) (h : sl.id = hslId) :
    occupySlot did hslId sl =
      { sl with occupied := true, pieceId := some did } := by
  unfold occupySlot
  simp [h]

theorem occupySlot_ne (did hslId : String) (sl : Slot) (h : ¬sl.id = hslId) :
    occupySlot did hslId sl = sl := by
  unfold occupySlot
  simp [h]

theorem startDrag_pieceKey (jd : Bool) (pid : String) (s : GameState) :
    (startDrag jd pid s).pieces.map pieceKey = s.pieces.map pieceKey := by
  unfold startDrag
  split
  · rfl
  · split
    · rfl
    · exact map_map_eq_of_key _ _ (liftPiece_key pid _) _

theorem startDrag_slotKey (jd : Bool) (pid : String) (s : GameState) :
    (startDrag jd pid s).slots.map slotKey = s.slots.map slotKey := by
  unfold startDrag
  split
  · rfl
  · split
    · rfl
    · split
      · exact map_map_eq_of_key _ _ (clearSlot_key _) _
      · rfl

theorem updateDragPosition_pieceKey (ix iz : ℝ) (s : GameState) :
    (updateDragPosition ix iz s).pieces.map pieceKey = s.pieces.map pieceKey := by
  unfold updateDragPosition
  split
  · rfl
  · exact map_map_eq_of_key _ _ (movePiece_key _ ix iz) _

theorem updateDragPosition_slots (ix iz : ℝ) (s : GameState) :
    (updateDragPosition ix iz s).slots = s.slots := by
  unfold updateDragPosition
  split <;> rfl

theorem endDrag_pieceKey (s : GameState) :
    (endDrag s).pieces.map pieceKey = s.pieces.map pieceKey := by
  unfold endDrag
  split
  · rfl
  · split
    · rfl
    · split
      · split
        · exact map_map_eq_of_key _ _ (rollbackPiece_key _) _
        · exact map_map_eq_of_key _ _ (snapPiece_key _ _) _
      · exact map_map_eq_of_key _ _ (rollbackPiece_key _) _

theorem endDrag_slotKey (s : GameState) :
    (endDrag s).slots.map slotKey = s.slots.map slotKey := by
  unfold endDrag
  split
  · rfl
  · split
    · rfl
    · split
      · split
        · rfl
        · exact map_map_eq_of_key _ _ (occupySlot_key _ _) _
      · rfl

theorem resetBoard_pieceKey (s : GameState) :
    (resetBoard s).pieces.map pieceKey = s.pieces.map pieceKey :=
  map_map_eq_of_key resetPiece pieceKey resetPiece_key s.pieces

theorem resetBoard_slotKey (s : GameState) :
    (resetBoard s).slots.map slotKey = s.slots.map slotKey :=
  map_map_eq_of_key resetSlot slotKey resetSlot_key s.slots

/-- Piece ids are the first components of the piece keys. -/
theorem pieces_ids_eq (l : List Piece) :
    l.map Piece.id = (l.map pieceKey).map Prod.fst := by
  rw [List.map_map]
  rfl

/-- Slot ids are the first components of the slot keys. -/
theorem slots_ids_eq (l : List Slot) :
    l.map Slot.id = (l.map slotKey).map Prod.fst := by
  rw [List.map_map]
  rfl

theorem nodup_ids_map {l : List Piece} {f : Piece → Piece}
    (hf : ∀ p, (f p).id = p.id) (h : (l.map Piece.id).Nodup) :
    ((l.map f).map Piece.id).Nodup := by
  rw [map_map_eq_of_key f Piece.id hf l]
  exact h

theorem nodup_slot_ids_map {l : List Slot} {f : Slot → Slot}
    (hf : ∀ sl, (f sl).id = sl.id) (h : (l.map Slot.id).Nodup) :
    ((l.map f).map Slot.id).Nodup := by
  rw [map_map_eq_of_key f Slot.id hf l]
  exact h

theorem find?_piece_mem {l : List Piece} {pid : String} {p : Piece}
    (h : l.find? (fun q => q.id == pid) = some p) : p ∈ l ∧ p.id = pid :=
  ⟨List.mem_of_find?_eq_some h, by simpa using List.find?_some h⟩

theorem find?_slot_mem {l : List Slot} {hid : String} {sl : Slot}
    (h : l.find? (fun t => t.id == hid) = some sl) : sl ∈ l ∧ sl.id = hid :=
  ⟨List.mem_of_find?_eq_some h, by simpa using List.find?_some h⟩

theorem eq_piece_of_id {l : List Piece} (hnd : (l.map Piece.id).Nodup)
    {p q : Piece} (hp : p ∈ l) (hq : q ∈ l) (h : p.id = q.id) : p = q :=
  List.inj_on_of_nodup_map hnd hp hq h

theorem eq_slot_of_id {l : List Slot} (hnd : (l.map Slot.id).Nodup)
    {p q : Slot} (hp : p ∈ l) (hq : q ∈ l) (h : p.id = q.id) : p = q :=
  List.inj_on_of_nodup_map hnd hp hq h

theorem liftPiece_slotId_of_eq (pid : String) (o : Vector3) (p : Piece)
    (h : p.id = pid) : (liftPiece pid o p).slotId = none := by
  simp [liftPiece, h]

theorem liftPiece_position_of_eq (pid : String) (o : Vector3) (p : Piece)
    (h : p.id = pid) :
    (liftPiece pid o p).position =
      ⟨p.position.x, p.position.y + 1.0, p.position.z⟩ := by
  simp [liftPiece, h]

theorem clearSlot_occupied_of_eq (sid : String) (sl : Slot) (h : sl.id = sid) :
    (clearSlot sid sl).occupied = false := by
  simp [clearSlot, h]

theorem clearSlot_pieceId_of_eq (sid : String) (sl : Slot) (h : sl.id = sid) :
    (clearSlot sid sl).pieceId = none := by
  simp [clearSlot, h]

theorem rollbackPiece_slotId_of_eq (did : String) (p : Piece)
    (h : p.id = did) : (rollbackPiece did p).slotId = none := by
  simp [rollbackPiece, h]

theorem rollbackPiece_position_of_eq (did : String) (p : Piece)
    (h : p.id = did) : (rollbackPiece did p).position = p.stagingPosition := by
  simp [rollbackPiece, h]

@[simp]
theorem rollbackPiece_staging (did : String) (p : Piece) :
    (rollbackPiece did p).stagingPosition = p.stagingPosition := by
  unfold rollbackPiece
  split <;> rfl

theorem snapPiece_slotId_of_eq (did : String) (hsl : Slot) (p : Piece)
    (h : p.id = did) : (snapPiece did hsl p).slotId = some hsl.id := by
  simp [snapPiece, h]

theorem snapPiece_position_of_eq (did : String) (hsl : Slot) (p : Piece)
    (h : p.id = did) : (snapPiece did hsl p).position = hsl.position := by
  simp [snapPiece, h]

theorem occupySlot_occupied_of_eq (did hslId : String) (sl : Slot)
    (h : sl.id = hslId) : (occupySlot did hslId sl).occupied = true := by
  simp [occupySlot, h]

theorem occupySlot_pieceId_of_eq (did hslId : String) (sl : Slot)
    (h : sl.id = hslId) : (occupySlot did hslId sl).pieceId = some did := by
  simp [occupySlot, h]

/-- `resetBoard` preserves the controller invariant. -/
theorem inv_resetBoard (s : GameState) (h : Inv s) : Inv (resetBoard s) := by
  refine ⟨nodup_ids_map resetPiece_id h.pieceNodup,
    nodup_slot_ids_map resetSlot_id h.slotNodup, ?_, ?_, ?_⟩
  · intro p hp sl hsl
    obtain ⟨p0, _, rfl⟩ := List.mem_map.mp hp
    obtain ⟨sl0, _, rfl⟩ := List.mem_map.mp hsl
    simp [resetPiece, resetSlot]
  · intro p hp hd
    simp [resetBoard] at hd
  · intro p hp sid hsid
    obtain ⟨p0, _, rfl⟩ := List.mem_map.mp hp
    simp [resetPiece] at hsid

/-- `updateDragPosition` preserves the controller invariant. -/
theorem inv_updateDragPosition (ix iz : ℝ) (s : GameState) (h : Inv s) :
    Inv (updateDragPosition ix iz s) := by
  unfold updateDragPosition
  split
  · exact h
  · rename_i did hdid
    refine ⟨nodup_ids_map (movePiece_id did ix iz) h.pieceNodup,
      h.slotNodup, ?_, ?_, ?_⟩
    · intro p hp sl hsl
      obtain ⟨p0, hp0, rfl⟩ := List.mem_map.mp hp
      rw [movePiece_slotId, movePiece_id]
      exact h.bicons p0 hp0 sl hsl
    · intro p hp hd
      obtain ⟨p0, hp0, rfl⟩ := List.mem_map.mp hp
      rw [movePiece_id] at hd
      rw [movePiece_slotId]
      exact h.dragClean p0 hp0 hd
    · intro p hp sid hsid
      obtain ⟨p0, hp0, rfl⟩ := List.mem_map.mp hp
      rw [movePiece_slotId] at hsid
      exact h.refsValid p0 hp0 sid hsid

/-- `startDrag` preserves the controller invariant. -/
theorem inv_startDrag (jd : Bool) (pid : String) (s : GameState) (h : Inv s) :
    Inv (startDrag jd pid s) := by
  unfold startDrag
  split
  · exact h
  · split
    · exact h
    · rename_i piece hfind
      obtain ⟨hmem, hpid⟩ := find?_piece_mem hfind
      split
      · rename_i sid hsid
        refine ⟨nodup_ids_map (liftPiece_id pid piece.position) h.pieceNodup,
          nodup_slot_ids_map (clearSlot_id sid) h.slotNodup, ?_, ?_, ?_⟩
        · intro p hp sl hsl
          obtain ⟨p0, hp0, rfl⟩ := List.mem_map.mp hp
          obtain ⟨sl0, hsl0, rfl⟩ := List.mem_map.mp hsl
          rw [clearSlot_id, liftPiece_id]
          by_cases hpp : p0.id = pid
          · rw [liftPiece_slotId_of_eq pid piece.position p0 hpp]
            constructor
            · intro hx
              exact Option.noConfusion hx
            · rintro ⟨hpe, hocc⟩
              by_cases hss : sl0.id = sid
              · rw [clearSlot_pieceId_of_eq sid sl0 hss] at hpe
                exact Option.noConfusion hpe
              · rw [clearSlot_ne sid sl0 hss] at hpe hocc
                have hp0piece : p0 = piece :=
                  eq_piece_of_id h.pieceNodup hp0 hmem (hpp.trans hpid.symm)
                have hb := (h.bicons p0 hp0 sl0 hsl0).mpr ⟨hpe, hocc⟩
                rw [hp0piece, hsid] at hb
                exact absurd (Option.some.inj hb).symm hss
          · rw [liftPiece_ne pid piece.position p0 hpp]
            by_cases hss : sl0.id = sid
            · rw [clearSlot_pieceId_of_eq sid sl0 hss,
                clearSlot_occupied_of_eq sid sl0 hss]
              constructor
              · intro hps
                exfalso
                have h1 := (h.bicons p0 hp0 sl0 hsl0).mp hps
                have h2 := (h.bicons piece hmem sl0 hsl0).mp (by rw [hsid, hss])
                have hids : p0.id = piece.id :=
                  Option.some.inj (h1.1.symm.trans h2.1)
                exact hpp (hids.trans hpid)
              · rintro ⟨hpe, _⟩
                exact Option.noConfusion hpe
            · rw [clearSlot_ne sid sl0 hss]
              exact h.bicons p0 hp0 sl0 hsl0
        · intro p hp hd
          obtain ⟨p0, hp0, rfl⟩ := List.mem_map.mp hp
          rw [liftPiece_id] at hd
          have hp0pid : p0.id = pid := (Option.some.inj hd).symm
          rw [liftPiece_slotId_of_eq pid piece.position p0 hp0pid]
        · intro p hp sid2 hsid2
          obtain ⟨p0, hp0, rfl⟩ := List.mem_map.mp hp
          rw [map_map_eq_of_key (clearSlot sid) Slot.id (clearSlot_id sid)
            s.slots]
          by_cases hpp : p0.id = pid
          · rw [liftPiece_slotId_of_eq pid piece.position p0 hpp] at hsid2
            simp at hsid2
          · rw [liftPiece_ne pid piece.position p0 hpp] at hsid2
            exact h.refsValid p0 hp0 sid2 hsid2
      · rename_i hsidnone
        refine ⟨nodup_ids_map (liftPiece_id pid piece.position) h.pieceNodup,
          h.slotNodup, ?_, ?_, ?_⟩
        · intro p hp sl hsl
          obtain ⟨p0, hp0, rfl⟩ := List.mem_map.mp hp
          rw [liftPiece_id]
          by_cases hpp : p0.id = pid
          · rw [liftPiece_slotId_of_eq pid piece.position p0 hpp]
            constructor
            · intro hx
              exact Option.noConfusion hx
            · rintro ⟨hpe, hocc⟩
              have hp0piece : p0 = piece :=
                eq_piece_of_id h.pieceNodup hp0 hmem (hpp.trans hpid.symm)
              have hb := (h.bicons p0 hp0 sl hsl).mpr ⟨hpe, hocc⟩
              rw [hp0piece, hsidnone] at hb
              exact Option.noConfusion hb
          · rw [liftPiece_ne pid piece.position p0 hpp]
            exact h.bicons p0 hp0 sl hsl
        · intro p hp hd
          obtain ⟨p0, hp0, rfl⟩ := List.mem_map.mp hp
          rw [liftPiece_id] at hd
          have hp0pid : p0.id = pid := (Option.some.inj hd).symm
          rw [liftPiece_slotId_of_eq pid piece.position p0 hp0pid]
        · intro p hp sid2 hsid2
          obtain ⟨p0, hp0, rfl⟩ := List.mem_map.mp hp
          by_cases hpp : p0.id = pid
          · rw [liftPiece_slotId_of_eq pid piece.position p0 hpp] at hsid2
            simp at hsid2
          · rw [liftPiece_ne pid piece.position p0 hpp] at hsid2
            exact h.refsValid p0 hp0 sid2 hsid2

/-- The rollback branch of `endDrag` preserves the controller invariant,
provided every piece carrying the dragged id has no slot reference (which
`dragClean` guarantees). -/
theorem inv_rollback (s : GameState) (did : String) (h : Inv s)
    (hclean : ∀ p ∈ s.pieces, p.id = did → p.slotId = none) :
    Inv { s with
      pieces := s.pieces.map (rollbackPiece did),
      draggedPiece := none,
      hoveredSlot := none } := by
  refine ⟨nodup_ids_map (rollbackPiece_id did) h.pieceNodup, h.slotNodup,
    ?_, ?_, ?_⟩
  · intro p hp sl hsl
    obtain ⟨p0, hp0, rfl⟩ := List.mem_map.mp hp
    rw [rollbackPiece_id]
    by_cases hpp : p0.id = did
    · rw [rollbackPiece_slotId_of_eq did p0 hpp]
      constructor
      · intro hx
        exact Option.noConfusion hx
      · rintro ⟨hpe, hocc⟩
        have hb := (h.bicons p0 hp0 sl hsl).mpr ⟨hpe, hocc⟩
        rw [hclean p0 hp0 hpp] at hb
        exact Option.noConfusion hb
    · rw [rollbackPiece_ne did p0 hpp]
      exact h.bicons p0 hp0 sl hsl
  · intro p hp hd
    exact Option.noConfusion hd
  · intro p hp sid hsid
    obtain ⟨p0, hp0, rfl⟩ := List.mem_map.mp hp
    by_cases hpp : p0.id = did
    · rw [rollbackPiece_slotId_of_eq did p0 hpp] at hsid
      simp at hsid
    · rw [rollbackPiece_ne did p0 hpp] at hsid
      exact h.refsValid p0 hp0 sid hsid

/-- `endDrag` preserves the controller invariant. -/
theorem inv_endDrag (s : GameState) (h : Inv s) : Inv (endDrag s) := by
  unfold endDrag
  split
  · exact h
  · rename_i did hdid
    split
    · exact h
    · rename_i pc hfindp
      obtain ⟨hpcmem, hpcid⟩ := find?_piece_mem hfindp
      have hpcslot : pc.slotId = none :=
        h.dragClean pc hpcmem (by rw [hdid, hpcid])
      have hclean : ∀ p ∈ s.pieces, p.id = did → p.slotId = none := by
        intro p hp hpd
        have hppc : p = pc :=
          eq_piece_of_id h.pieceNodup hp hpcmem (hpd.trans hpcid.symm)
        rw [hppc]
        exact hpcslot
      split
      · rename_i hsl hhov
        have hslmem : hsl ∈ s.slots := by
          rcases hb : s.hoveredSlot with _ | hid
          · rw [hb] at hhov
            exact Option.noConfusion hhov
          · rw [hb] at hhov
            exact (find?_slot_mem hhov).1
        split
        · exact inv_rollback s did h hclean
        · rename_i hocc
          have hoccf : hsl.occupied = false := by
            cases hbool : hsl.occupied
            · rfl
            · exact absurd hbool hocc
          refine ⟨nodup_ids_map (snapPiece_id did hsl) h.pieceNodup,
            nodup_slot_ids_map (occupySlot_id did hsl.id) h.slotNodup,
            ?_, ?_, ?_⟩
          · intro p hp sl hslm
            obtain ⟨p0, hp0, rfl⟩ := List.mem_map.mp hp
            obtain ⟨sl0, hsl0, rfl⟩ := List.mem_map.mp hslm
            rw [snapPiece_id, occupySlot_id]
            by_cases hpp : p0.id = did
            · rw [snapPiece_slotId_of_eq did hsl p0 hpp]
              by_cases hss : sl0.id = hsl.id
              · rw [occupySlot_pieceId_of_eq did hsl.id sl0 hss,
                  occupySlot_occupied_of_eq did hsl.id sl0 hss]
                constructor
                · intro _
                  exact ⟨by rw [hpp], rfl⟩
                · intro _
                  rw [hss]
              · rw [occupySlot_ne did hsl.id sl0 hss]
                constructor
                · intro hx
                  exact absurd (Option.some.inj hx).symm hss
                · rintro ⟨hpe, hocc2⟩
                  exfalso
                  have hb := (h.bicons p0 hp0 sl0 hsl0).mpr ⟨hpe, hocc2⟩
                  have hp0pc : p0 = pc :=
                    eq_piece_of_id h.pieceNodup hp0 hpcmem
                      (hpp.trans hpcid.symm)
                  rw [hp0pc, hpcslot] at hb
                  exact Option.noConfusion hb
            · rw [snapPiece_ne did hsl p0 hpp]
              by_cases hss : sl0.id = hsl.id
              · have hsl0hsl : sl0 = hsl :=
                  eq_slot_of_id h.slotNodup hsl0 hslmem hss
                rw [occupySlot_pieceId_of_eq did hsl.id sl0 hss,
                  occupySlot_occupied_of_eq did hsl.id sl0 hss]
                constructor
                · intro hx
                  exfalso
                  have hb := (h.bicons p0 hp0 sl0 hsl0).mp hx
                  rw [hsl0hsl, hoccf] at hb
                  exact Bool.noConfusion hb.2
                · rintro ⟨hpe, _⟩
                  exact absurd (Option.some.inj hpe).symm hpp
              · rw [occupySlot_ne did hsl.id sl0 hss]
                exact h.bicons p0 hp0 sl0 hsl0
          · intro p hp hd
            exact Option.noConfusion hd
          · intro p hp sid hsid
            obtain ⟨p0, hp0, rfl⟩ := List.mem_map.mp hp
            rw [map_map_eq_of_key (occupySlot did hsl.id) Slot.id
              (occupySlot_id did hsl.id) s.slots]
            by_cases hpp : p0.id = did
            · rw [snapPiece_slotId_of_eq did hsl p0 hpp] at hsid
              have hsideq : hsl.id = sid := by simpa using hsid
              rw [← hsideq]
              exact List.mem_map_of_mem Slot.id hslmem
            · rw [snapPiece_ne did hsl p0 hpp] at hsid
              exact h.refsValid p0 hp0 sid hsid
      · exact inv_rollback s did h hclean

/-- Every controller operation preserves the creation-time identity of every
piece and every slot, in order. -/
theorem reachable_keys (s : GameState) (h : Reachable s) :
    s.pieces.map pieceKey = createInitialGameState.pieces.map pieceKey ∧
    s.slots.map slotKey = createInitialGameState.slots.map slotKey := by
  induction h with
  | init => exact ⟨rfl, rfl⟩
  | start s jd pid _ ih =>
    exact ⟨(startDrag_pieceKey jd pid s).trans ih.1,
      (startDrag_slotKey jd pid s).trans ih.2⟩
  | update s ix iz _ ih =>
    exact ⟨(updateDragPosition_pieceKey ix iz s).trans ih.1,
      by rw [updateDragPosition_slots]; exact ih.2⟩
  | drop s _ ih =>
    exact ⟨(endDrag_pieceKey s).trans ih.1, (endDrag_slotKey s).trans ih.2⟩
  | reset s _ ih =>
    exact ⟨(resetBoard_pieceKey s).trans ih.1, (resetBoard_slotKey s).trans ih.2⟩

theorem initial_pieces_slotId :
    ∀ p ∈ generateDiamondPieces, p.slotId = none := by decide

theorem initial_slots_clear :
    ∀ sl ∈ generateBoardSlots, sl.pieceId = none ∧ sl.occupied = false := by
  decide

theorem initial_pieceNodup :
    (generateDiamondPieces.map Piece.id).Nodup := by decide

theorem initial_slotNodup :
    (generateBoardSlots.map Slot.id).Nodup := by decide

/-- The initial state satisfies the controller invariant. -/
theorem inv_initial : Inv createInitialGameState := by
  refine ⟨initial_pieceNodup, initial_slotNodup, ?_, ?_, ?_⟩
  · intro p hp sl hsl
    rw [initial_pieces_slotId p hp]
    constructor
    · intro hx
      exact Option.noConfusion hx
    · rintro ⟨hpe, _⟩
      rw [(initial_slots_clear sl hsl).1] at hpe
      exact Option.noConfusion hpe
  · intro p hp hd
    exact Option.noConfusion hd
  · intro p hp sid hsid
    rw [initial_pieces_slotId p hp] at hsid
    simp at hsid

/-- Every reachable state satisfies the controller invariant. -/
theorem inv_reachable (s : GameState) (h : Reachable s) : Inv s := by
  induction h with
  | init => exact inv_initial
  | start s jd pid _ ih => exact inv_startDrag jd pid s ih
  | update s ix iz _ ih => exact inv_updateDragPosition ix iz s ih
  | drop s _ ih => exact inv_endDrag s ih
  | reset s _ ih => exact inv_resetBoard s ih

/-- In an invariant state, no slot is referenced by two different pieces. -/
theorem unique_slot_ref {s : GameState} (h : Inv s) :
    ∀ p1 ∈ s.pieces, ∀ p2 ∈ s.pieces, ∀ sid : String,
      p1.slotId = some sid → p2.slotId = some sid → p1 = p2 := by
  intro p1 h1 p2 h2 sid e1 e2
  have hsid : sid ∈ s.slots.map Slot.id :=
    h.refsValid p1 h1 sid (by rw [e1]; rfl)
  obtain ⟨sl, hsl, hslid⟩ := List.mem_map.mp hsid
  have hb1 := (h.bicons p1 h1 sl hsl).mp (by rw [e1, hslid])
  have hb2 := (h.bicons p2 h2 sl hsl).mp (by rw [e2, hslid])
  exact eq_piece_of_id h.pieceNodup h1 h2
    (Option.some.inj (hb1.1.symm.trans hb2.1))

/-- The 45-degree rotation preserves squared distances: the squared distance
between two rotated grid points equals the squared distance between the grid
points themselves. -/
theorem rotated_dist (x1 z1 x2 z2 : ℚ) :
    (rotatedX x1 z1 - rotatedX x2 z2) ^ 2 +
      (rotatedZ x1 z1 - rotatedZ x2 z2) ^ 2 =
    ((x1 : ℝ) - (x2 : ℝ)) ^ 2 + ((z1 : ℝ) - (z2 : ℝ)) ^ 2 := by
  have h := Real.sin_sq_add_cos_sq (Real.pi / 4)
  unfold rotatedX rotatedZ
  linear_combination (((x1 : ℝ) - (x2 : ℝ)) ^ 2 + ((z1 : ℝ) - (z2 : ℝ)) ^ 2) * h

/-- Distinct grid entries are separated by at least the slot pitch. -/
theorem slotGrid_separation :
    List.Pairwise (fun e1 e2 : String × ℚ × ℚ =>
      (e1.2.1 - e2.2.1) * (e1.2.1 - e2.2.1) +
        (e1.2.2 - e2.2.2) * (e1.2.2 - e2.2.2) ≥ spacing * spacing)
      slotGrid := by
  unfold slotGrid spacing
  norm_num [List.pairwise_cons, List.forall_mem_cons]

theorem mkBoardSlot_position_ne {e1 e2 : String × ℚ × ℚ}
    (hsep : (e1.2.1 - e2.2.1) * (e1.2.1 - e2.2.1) +
      (e1.2.2 - e2.2.2) * (e1.2.2 - e2.2.2) ≥ spacing * spacing) :
    (mkBoardSlot e1).position ≠ (mkBoardSlot e2).position := by
  intro hpos
  have hx : rotatedX e1.2.1 e1.2.2 = rotatedX e2.2.1 e2.2.2 :=
    congrArg Vector3.x hpos
  have hz : rotatedZ e1.2.1 e1.2.2 = rotatedZ e2.2.1 e2.2.2 :=
    congrArg Vector3.z hpos
  have hd := rotated_dist e1.2.1 e1.2.2 e2.2.1 e2.2.2
  rw [hx, hz] at hd
  have hsepR : ((e1.2.1 : ℝ) - (e2.2.1 : ℝ)) * ((e1.2.1 : ℝ) - (e2.2.1 : ℝ)) +
      ((e1.2.2 : ℝ) - (e2.2.2 : ℝ)) * ((e1.2.2 : ℝ) - (e2.2.2 : ℝ)) ≥
      (spacing : ℝ) * (spacing : ℝ) := by
    exact_mod_cast hsep
  have hsp : (0 : ℝ) < (spacing : ℝ) * (spacing : ℝ) := by
    norm_num [spacing]
  nlinarith [hd, hsepR, hsp]

/-- C9 core: the 13 generated slots have pairwise distinct positions. -/
theorem generateBoardSlots_positions_distinct :
    List.Pairwise (fun a b : Slot => a.position ≠ b.position)
      generateBoardSlots := by
  unfold generateBoardSlots
  rw [List.pairwise_map]
  exact slotGrid_separation.imp (fun h => mkBoardSlot_position_ne h)

theorem detectHoveredSlot_nil (pos : Vector3) :
    detectHoveredSlot pos [] = none := by
  unfold detectHoveredSlot
  rfl

theorem detectHoveredSlot_cons (pos : Vector3) (a : Slot) (rest : List Slot) :
    detectHoveredSlot pos (a :: rest) =
      if slotDistance pos a < hoverThreshold then some a
      else detectHoveredSlot pos rest := by
  rw [detectHoveredSlot]

/-- A successful hover resolution returns the first slot in registry order
within the acceptance radius. -/
theorem detectHoveredSlot_eq_some (pos : Vector3) (slots : List Slot)
    (sl : Slot) (h : detectHoveredSlot pos slots = some sl) :
    ∃ l1 l2, slots = l1 ++ sl :: l2 ∧
      slotDistance pos sl < hoverThreshold ∧
      ∀ t ∈ l1, ¬slotDistance pos t < hoverThreshold := by
  induction slots with
  | nil =>
    rw [detectHoveredSlot_nil] at h
    exact Option.noConfusion h
  | cons a rest ih =>
    rw [detectHoveredSlot_cons] at h
    by_cases hc : slotDistance pos a < hoverThreshold
    · rw [if_pos hc] at h
      obtain rfl := Option.some.inj h
      refine ⟨[], rest, rfl, hc, ?_⟩
      intro t ht
      cases ht
    · rw [if_neg hc] at h
      obtain ⟨l1, l2, heq, hin, hall⟩ := ih h
      refine ⟨a :: l1, l2, by rw [heq]; rfl, hin, ?_⟩
      intro t ht
      rcases List.mem_cons.mp ht with rfl | ht2
      · exact hc
      · exact hall t ht2

/-- Hover resolution fails exactly when no slot is within the radius. -/
theorem detectHoveredSlot_eq_none (pos : Vector3) (slots : List Slot) :
    detectHoveredSlot pos slots = none ↔
      ∀ t ∈ slots, ¬slotDistance pos t < hoverThreshold := by
  induction slots with
  | nil => simp [detectHoveredSlot_nil]
  | cons a rest ih =>
    rw [detectHoveredSlot_cons]
    by_cases hc : slotDistance pos a < hoverThreshold
    · rw [if_pos hc]
      constructor
      · intro hx
        exact Option.noConfusion hx
      · intro hall
        exact absurd hc (hall a (List.mem_cons_self a rest))
    · rw [if_neg hc, ih]
      constructor
      · intro hall t ht
        rcases List.mem_cons.mp ht with rfl | ht2
        · exact hc
        · exact hall t ht2
      · intro hall t ht
        exact hall t (List.mem_cons_of_mem a ht)

/-- The cursor's vertical component plays no role in hover resolution. -/
theorem detectHoveredSlot_y_irrel (x y y2 z : ℝ) (slots : List Slot) :
    detectHoveredSlot ⟨x, y, z⟩ slots = detectHoveredSlot ⟨x, y2, z⟩ slots := by
  induction slots with
  | nil => rfl
  | cons a rest ih =>
    rw [detectHoveredSlot_cons, detectHoveredSlot_cons, ih]
    rfl

/-- The slots' vertical components play no role in the hover distance. -/
theorem slotDistance_slot_y_irrel (pos : Vector3) (sl : Slot) (y2 : ℝ) :
    slotDistance pos
      { sl with position := ⟨sl.position.x, y2, sl.position.z⟩ } =
      slotDistance pos sl :=
  rfl

/-- Hover resolution is blind to every slot field other than position: any
per-slot rewrite preserving ids and positions preserves the resolved id. -/
theorem detectHoveredSlot_occupancy_irrel (pos : Vector3) (slots : List Slot)
    (f : Slot → Slot)
    (hf : ∀ sl, (f sl).id = sl.id ∧ (f sl).position = sl.position) :
    (detectHoveredSlot pos (slots.map f)).map Slot.id =
      (detectHoveredSlot pos slots).map Slot.id := by
  induction slots with
  | nil => rfl
  | cons a rest ih =>
    rw [List.map_cons, detectHoveredSlot_cons, detectHoveredSlot_cons]
    have hd : slotDistance pos (f a) = slotDistance pos a := by
      unfold slotDistance
      rw [(hf a).2]
    rw [hd]
    by_cases hc : slotDistance pos a < hoverThreshold
    · rw [if_pos hc, if_pos hc]
      simp [(hf a).1]
    · rw [if_neg hc, if_neg hc]
      exact ih

theorem resetPiece_comp : resetPiece ∘ resetPiece = resetPiece :=
  funext fun _ => rfl

theorem resetSlot_comp : resetSlot ∘ resetSlot = resetSlot :=
  funext fun _ => rfl

/-- C7: after `resetBoard`, every slot is unoccupied with no piece reference,
every piece is at its staging position (`originPosition`) with no slot
reference, the interaction state is cleared, and resetting twice equals
resetting once. -/
theorem claim_C7 (s : GameState) :
    (∀ sl ∈ (resetBoard s).slots, sl.occupied = false ∧ sl.pieceId = none) ∧
    (∀ p ∈ (resetBoard s).pieces,
      p.slotId = none ∧ p.position = p.stagingPosition) ∧
    (resetBoard s).draggedPiece = none ∧
    (resetBoard s).hoveredSlot = none ∧
    resetBoard (resetBoard s) = resetBoard s := by
  refine ⟨?_, ?_, rfl, rfl, ?_⟩
  · intro sl1 hsl
    obtain ⟨sl0, _, rfl⟩ := List.mem_map.mp hsl
    exact ⟨rfl, rfl⟩
  · intro p1 hp
    obtain ⟨p0, _, rfl⟩ := List.mem_map.mp hp
    exact ⟨rfl, rfl⟩
  · simp only [resetBoard, List.map_map, resetPiece_comp, resetSlot_comp]

/-- C9: `generateBoardSlots` produces exactly 13 slots, all at pairwise
distinct positions. -/
theorem claim_C9 :
    generateBoardSlots.length = 13 ∧
    List.Pairwise (fun a b : Slot => a.position ≠ b.position)
      generateBoardSlots :=
  ⟨rfl, generateBoardSlots_positions_distinct⟩

/-- A two-piece state with a drag of piece "A" in flight; used to exhibit the
behaviour of `startDrag` during an active drag. -/
noncomputable def c2pieceA : Piece :=
  { id := "A", color := .red, shape := .round, position := ⟨0, 1, 0⟩,
    slotId := none, stagingPosition := ⟨5, 0, 5⟩, originalPosition := none }

/-- Second staged piece of the two-piece state. -/
noncomputable def c2pieceB : Piece :=
  { id := "B", color := .blue, shape := .square, position := ⟨6, 0, 5⟩,
    slotId := none, stagingPosition := ⟨6, 0, 5⟩, originalPosition := none }

/-- State in which piece "A" is currently dragged. -/
noncomputable def c2state : GameState :=
  { pieces := [c2pieceA, c2pieceB], slots := [], draggedPiece := some "A",
    hoveredSlot := none, hoveredPiece := none }

/-- An idle empty state. -/
def c2idle : GameState :=
  { pieces := [], slots := [], draggedPiece := none, hoveredSlot := none,
    hoveredPiece := none }

/-- C2 counterexample: with a drag of piece "A" active, `startDrag` on piece
"B" is not a no-op — it silently overwrites the in-flight drag, setting
`draggedPiece` to "B". -/
theorem claim_C2_counterexample :
    c2state.draggedPiece = some "A" ∧
    (startDrag false "B" c2state).draggedPiece = some "B" ∧
    startDrag false "B" c2state ≠ c2state := by
  refine ⟨rfl, rfl, ?_⟩
  intro h
  have hd : (some "B" : Option String) = some "A" :=
    congrArg GameState.draggedPiece h
  simp at hd

/-- C2 amended: `updateDragPosition` and `endDrag` called while no drag is
active leave the state unchanged; `startDrag` (guard flag clear) does not
check for an active drag — on any existing piece it sets `draggedPiece` to
that piece's id, silently overwriting any in-flight drag. -/
theorem claim_C2_amended :
    (∀ (ix iz : ℝ) (s : GameState), s.draggedPiece = none →
      updateDragPosition ix iz s = s) ∧
    (∀ s : GameState, s.draggedPiece = none → endDrag s = s) ∧
    (∀ (s : GameState) (pid : String) (p : Piece),
      s.pieces.find? (fun q => q.id == pid) = some p →
      (startDrag false pid s).draggedPiece = some pid) := by
  refine ⟨?_, ?_, ?_⟩
  · intro ix iz s h
    unfold updateDragPosition
    split
    · rfl
    · rename_i did hd
      rw [h] at hd
      exact Option.noConfusion hd
  · intro s h
    unfold endDrag
    split
    · rfl
    · rename_i did hd
      rw [h] at hd
      exact Option.noConfusion hd
  · intro s pid p hfind
    unfold startDrag
    rw [if_neg Bool.false_ne_true]
    split
    · rename_i hnone
      rw [hfind] at hnone
      exact Option.noConfusion hnone
    · rfl

/-- Witness for the amended C2 at concrete states. -/
theorem claim_C2_witness :
    updateDragPosition 0 0 c2idle = c2idle ∧
    endDrag c2idle = c2idle ∧
    (startDrag false "A" c2state).draggedPiece = some "A" :=
  ⟨claim_C2_amended.1 0 0 c2idle rfl, claim_C2_amended.2.1 c2idle rfl,
    claim_C2_amended.2.2 c2state "A" c2pieceA rfl⟩

/-- C3: bidirectional consistency holds in every reachable state: a piece
references a slot exactly when that slot is occupied and references the piece
back, and no slot is referenced by two different pieces. -/
theorem claim_C3 (s : GameState) (h : Reachable s) :
    (∀ p ∈ s.pieces, ∀ sl ∈ s.slots,
      (p.slotId = some sl.id ↔ sl.pieceId = some p.id ∧ sl.occupied = true)) ∧
    (∀ p1 ∈ s.pieces, ∀ p2 ∈ s.pieces, ∀ sid : String,
      p1.slotId = some sid → p2.slotId = some sid → p1 = p2) :=
  ⟨(inv_reachable s h).bicons, unique_slot_ref (inv_reachable s h)⟩

/-- Witness for C3 at the initial state. -/
theorem claim_C3_witness :
    (∀ p ∈ createInitialGameState.pieces, ∀ sl ∈ createInitialGameState.slots,
      (p.slotId = some sl.id ↔
        sl.pieceId = some p.id ∧ sl.occupied = true)) ∧
    (∀ p1 ∈ createInitialGameState.pieces,
      ∀ p2 ∈ createInitialGameState.pieces, ∀ sid : String,
      p1.slotId = some sid → p2.slotId = some sid → p1 = p2) :=
  claim_C3 createInitialGameState Reachable.init

/-- Number of pieces of a given color. -/
def colorCount (l : List Piece) (c : PieceColor) : ℕ :=
  l.countP (fun p => p.color == c)

/-- Number of pieces of a given color and shape. -/
def colorShapeCount (l : List Piece) (c : PieceColor) (sh : PieceShape) : ℕ :=
  l.countP (fun p => p.color == c && p.shape == sh)

theorem colorCount_eq_keys (l : List Piece) (c : PieceColor) :
    colorCount l c = (l.map pieceKey).countP (fun k => k.2.1 == c) := by
  unfold colorCount
  rw [List.countP_map]
  rfl

theorem colorShapeCount_eq_keys (l : List Piece) (c : PieceColor)
    (sh : PieceShape) :
    colorShapeCount l c sh =
      (l.map pieceKey).countP (fun k => k.2.1 == c && k.2.2 == sh) := by
  unfold colorShapeCount
  rw [List.countP_map]
  rfl

theorem initial_keys_red_round :
    ∀ k ∈ createInitialGameState.pieces.map pieceKey,
      k.2.1 = PieceColor.red → k.2.2 = PieceShape.round := by
  decide

theorem initial_colorCounts :
    colorCount createInitialGameState.pieces .orange = 3 ∧
    colorCount createInitialGameState.pieces .yellow = 3 ∧
    colorCount createInitialGameState.pieces .green = 3 ∧
    colorCount createInitialGameState.pieces .blue = 3 ∧
    colorCount createInitialGameState.pieces .red = 1 := by
  refine ⟨?_, ?_, ?_, ?_, ?_⟩ <;> decide

theorem initial_colorShapeCounts :
    ∀ c : PieceColor, c ≠ .red → ∀ sh : PieceShape,
      colorShapeCount createInitialGameState.pieces c sh = 1 := by
  intro c hc sh
  cases c <;> cases sh <;> first | decide | exact absurd rfl hc

/-- C8: in the initial state and every reachable state the 13 pieces count
3 orange, 3 yellow, 3 green, 3 blue and 1 red piece; each non-red color has
exactly one piece of each shape; the red piece is round; and no operation
changes any piece's id, color or shape (the creation-time projection of the
piece list is invariant). -/
theorem claim_C8 (s : GameState) (h : Reachable s) :
    s.pieces.length = 13 ∧
    colorCount s.pieces .orange = 3 ∧ colorCount s.pieces .yellow = 3 ∧
    colorCount s.pieces .green = 3 ∧ colorCount s.pieces .blue = 3 ∧
    colorCount s.pieces .red = 1 ∧
    (∀ c : PieceColor, c ≠ .red → ∀ sh : PieceShape,
      colorShapeCount s.pieces c sh = 1) ∧
    (∀ p ∈ s.pieces, p.color = .red → p.shape = .round) ∧
    s.pieces.map pieceKey = createInitialGameState.pieces.map pieceKey := by
  have hk := (reachable_keys s h).1
  have hlen : s.pieces.length = createInitialGameState.pieces.length := by
    rw [← List.length_map s.pieces pieceKey, hk, List.length_map]
  have hcc : ∀ c : PieceColor,
      colorCount s.pieces c = colorCount createInitialGameState.pieces c := by
    intro c
    rw [colorCount_eq_keys, hk, ← colorCount_eq_keys]
  have hcsc : ∀ (c : PieceColor) (sh : PieceShape),
      colorShapeCount s.pieces c sh =
        colorShapeCount createInitialGameState.pieces c sh := by
    intro c sh
    rw [colorShapeCount_eq_keys, hk, ← colorShapeCount_eq_keys]
  obtain ⟨ho, hy, hg, hb, hr⟩ := initial_colorCounts
  refine ⟨by rw [hlen]; rfl, by rw [hcc]; exact ho, by rw [hcc]; exact hy,
    by rw [hcc]; exact hg, by rw [hcc]; exact hb, by rw [hcc]; exact hr,
    ?_, ?_, hk⟩
  · intro c hc sh
    rw [hcsc]
    exact initial_colorShapeCounts c hc sh
  · intro p hp hred
    have hkmem : pieceKey p ∈ createInitialGameState.pieces.map pieceKey := by
      rw [← hk]
      exact List.mem_map_of_mem pieceKey hp
    exact initial_keys_red_round (pieceKey p) hkmem hred

/-- Witness for C8 at the initial state. -/
theorem claim_C8_witness :
    createInitialGameState.pieces.length = 13 ∧
    colorCount createInitialGameState.pieces .orange = 3 ∧
    colorCount createInitialGameState.pieces .yellow = 3 ∧
    colorCount createInitialGameState.pieces .green = 3 ∧
    colorCount createInitialGameState.pieces .blue = 3 ∧
    colorCount createInitialGameState.pieces .red = 1 ∧
    (∀ c : PieceColor, c ≠ .red → ∀ sh : PieceShape,
      colorShapeCount createInitialGameState.pieces c sh = 1) ∧
    (∀ p ∈ createInitialGameState.pieces,
      p.color = .red → p.shape = .round) ∧
    createInitialGameState.pieces.map pieceKey =
      createInitialGameState.pieces.map pieceKey :=
  claim_C8 createInitialGameState Reachable.init

theorem endDrag_commit_eq (s : GameState) (did : String) (p : Piece)
    (hid : String) (hsl : Slot)
    (hdrag : s.draggedPiece = some did)
    (hfind : s.pieces.find? (fun q => q.id == did) = some p)
    (hh : s.hoveredSlot = some hid)
    (hf : s.slots.find? (fun t => t.id == hid) = some hsl)
    (hocc : hsl.occupied = false) :
    endDrag s = { s with
      pieces := s.pieces.map (snapPiece did hsl),
      slots := s.slots.map (occupySlot did hsl.id),
      draggedPiece := none,
      hoveredSlot := none } := by
  unfold endDrag
  split
  · rename_i hnone
    rw [hdrag] at hnone
    exact Option.noConfusion hnone
  · rename_i did2 hdid2
    rw [hdrag] at hdid2
    obtain rfl := Option.some.inj hdid2
    split
    · rename_i hfnone
      rw [hfind] at hfnone
      exact Option.noConfusion hfnone
    · split
      · rename_i hsl2 hhov2
        rw [hh, Option.some_bind, hf] at hhov2
        obtain rfl := Option.some.inj hhov2
        split
        · rename_i hc
          rw [hocc] at hc
          exact Bool.noConfusion hc
        · rfl
      · rename_i hhovnone
        rw [hh, Option.some_bind, hf] at hhovnone
        exact Option.noConfusion hhovnone

theorem endDrag_rollback_occupied_eq (s : GameState) (did : String) (p : Piece)
    (hid : String) (hsl : Slot)
    (hdrag : s.draggedPiece = some did)
    (hfind : s.pieces.find? (fun q => q.id == did) = some p)
    (hh : s.hoveredSlot = some hid)
    (hf : s.slots.find? (fun t => t.id == hid) = some hsl)
    (hocc : hsl.occupied = true) :
    endDrag s = { s with
      pieces := s.pieces.map (rollbackPiece did),
      draggedPiece := none,
      hoveredSlot := none } := by
  unfold endDrag
  split
  · rename_i hnone
    rw [hdrag] at hnone
    exact Option.noConfusion hnone
  · rename_i did2 hdid2
    rw [hdrag] at hdid2
    obtain rfl := Option.some.inj hdid2
    split
    · rename_i hfnone
      rw [hfind] at hfnone
      exact Option.noConfusion hfnone
    · split
      · rename_i hsl2 hhov2
        rw [hh, Option.some_bind, hf] at hhov2
        obtain rfl := Option.some.inj hhov2
        rw [if_pos hocc]
      · rename_i hhovnone
        rw [hh, Option.some_bind, hf] at hhovnone

theorem endDrag_rollback_none_eq (s : GameState) (did : String) (p : Piece)
    (hdrag : s.draggedPiece = some did)
    (hfind : s.pieces.find? (fun q => q.id == did) = some p)
    (hh : s.hoveredSlot = none) :
    endDrag s = { s with
      pieces := s.pieces.map (rollbackPiece did),
      draggedPiece := none,
      hoveredSlot := none } := by
  unfold endDrag
  split
  · rename_i hnone
    rw [hdrag] at hnone
    exact Option.noConfusion hnone
  · rename_i did2 hdid2
    rw [hdrag] at hdid2
    obtain rfl := Option.some.inj hdid2
    split
    · rename_i hfnone
      rw [hfind] at hfnone
      exact Option.noConfusion hfnone
    · split
      · rename_i hsl2 hhov2
        rw [hh] at hhov2
        exact Option.noConfusion hhov2
      · rfl

theorem endDrag_clears (s : GameState) (did : String) (p : Piece)
    (hdrag : s.draggedPiece = some did)
    (hfind : s.pieces.find? (fun q => q.id == did) = some p) :
    (endDrag s).draggedPiece = none ∧ (endDrag s).hoveredSlot = none := by
  unfold endDrag
  split
  · rename_i hnone
    rw [hdrag] at hnone
    exact Option.noConfusion hnone
  · rename_i did2 hdid2
    rw [hdrag] at hdid2
    obtain rfl := Option.some.inj hdid2
    split
    · rename_i hfnone
      rw [hfind] at hfnone
      exact Option.noConfusion hfnone
    · split
      · split
        · exact ⟨rfl, rfl⟩
        · exact ⟨rfl, rfl⟩
      · exact ⟨rfl, rfl⟩

/-- C1: when a drag is active, `endDrag` commits exactly when a hovered slot
resolves and is unoccupied at release: on commit the dragged piece snaps to
the slot's exact position and references it, and the slot becomes occupied by
the dragged piece; otherwise (no hovered slot, or hovered slot occupied) the
piece returns to its staging position with no slot reference and the slots
are untouched.  `draggedPiece` and `hoveredSlot` are cleared in both
branches, and afterwards no slot is referenced by two different pieces. -/
theorem claim_C1 (s : GameState) (did : String) (p : Piece)
    (hinv : Inv s)
    (hdrag : s.draggedPiece = some did)
    (hfind : s.pieces.find? (fun q => q.id == did) = some p) :
    (endDrag s).draggedPiece = none ∧
    (endDrag s).hoveredSlot = none ∧
    (∀ hid hsl, s.hoveredSlot = some hid →
      s.slots.find? (fun t => t.id == hid) = some hsl →
      (hsl.occupied = false →
        (∀ q ∈ (endDrag s).pieces, q.id = did →
          q.position = hsl.position ∧ q.slotId = some hsl.id) ∧
        (∀ t ∈ (endDrag s).slots, t.id = hsl.id →
          t.occupied = true ∧ t.pieceId = some did)) ∧
      (hsl.occupied = true →
        (∀ q ∈ (endDrag s).pieces, q.id = did →
          q.position = q.stagingPosition ∧ q.slotId = none) ∧
        (endDrag s).slots = s.slots)) ∧
    (s.hoveredSlot = none →
      (∀ q ∈ (endDrag s).pieces, q.id = did →
        q.position = q.stagingPosition ∧ q.slotId = none) ∧
      (endDrag s).slots = s.slots) ∧
    (∀ q1 ∈ (endDrag s).pieces, ∀ q2 ∈ (endDrag s).pieces, ∀ sid : String,
      q1.slotId = some sid → q2.slotId = some sid → q1 = q2) := by
  obtain ⟨hcd, hch⟩ := endDrag_clears s did p hdrag hfind
  refine ⟨hcd, hch, ?_, ?_, unique_slot_ref (inv_endDrag s hinv)⟩
  · intro hid hsl hh hf
    constructor
    · intro hocc
      rw [endDrag_commit_eq s did p hid hsl hdrag hfind hh hf hocc]
      constructor
      · intro q hq hqid
        obtain ⟨q0, hq0, rfl⟩ := List.mem_map.mp hq
        rw [snapPiece_id] at hqid
        exact ⟨snapPiece_position_of_eq did hsl q0 hqid,
          snapPiece_slotId_of_eq did hsl q0 hqid⟩
      · intro t ht htid
        obtain ⟨t0, ht0, rfl⟩ := List.mem_map.mp ht
        rw [occupySlot_id] at htid
        exact ⟨occupySlot_occupied_of_eq did hsl.id t0 htid,
          occupySlot_pieceId_of_eq did hsl.id t0 htid⟩
    · intro hocc
      rw [endDrag_rollback_occupied_eq s did p hid hsl hdrag hfind hh hf hocc]
      constructor
      · intro q hq hqid
        obtain ⟨q0, hq0, rfl⟩ := List.mem_map.mp hq
        rw [rollbackPiece_id] at hqid
        rw [rollbackPiece_staging,
          rollbackPiece_position_of_eq did q0 hqid,
          rollbackPiece_slotId_of_eq did q0 hqid]
        exact ⟨rfl, rfl⟩
      · rfl
  · intro hh
    rw [endDrag_rollback_none_eq s did p hdrag hfind hh]
    constructor
    · intro q hq hqid
      obtain ⟨q0, hq0, rfl⟩ := List.mem_map.mp hq
      rw [rollbackPiece_id] at hqid
      rw [rollbackPiece_staging,
        rollbackPiece_position_of_eq did q0 hqid,
        rollbackPiece_slotId_of_eq did q0 hqid]
      exact ⟨rfl, rfl⟩
    · rfl

/-- A one-piece, one-slot state in which the piece is dragged above the
unoccupied slot; used as the concrete instance for C1. -/
noncomputable def c1piece : Piece :=
  { id := "A", color := .red, shape := .round, position := ⟨0, 1, 0⟩,
    slotId := none, stagingPosition := ⟨5, 0, 5⟩, originalPosition := none }

/-- The unoccupied hovered slot of the C1 instance. -/
noncomputable def c1slot : Slot :=
  { id := "s1", position := ⟨0, 0, 0⟩, occupied := false, pieceId := none }

/-- The C1 instance state: piece "A" dragged, slot "s1" hovered. -/
noncomputable def c1state : GameState :=
  { pieces := [c1piece], slots := [c1slot], draggedPiece := some "A",
    hoveredSlot := some "s1", hoveredPiece := none }

theorem c1state_inv : Inv c1state := by
  constructor
  · decide
  · decide
  · intro p hp sl hsl
    have hp' : p = c1piece := List.mem_singleton.mp hp
    have hsl' : sl = c1slot := List.mem_singleton.mp hsl
    subst hp'
    subst hsl'
    constructor
    · intro hx
      exact Option.noConfusion hx
    · rintro ⟨hpe, _⟩
      exact Option.noConfusion hpe
  · intro p hp hd
    have hp' : p = c1piece := List.mem_singleton.mp hp
    subst hp'
    rfl
  · intro p hp sid hsid
    have hp' : p = c1piece := List.mem_singleton.mp hp
    subst hp'
    simp [c1piece] at hsid

/-- Witness for C1 at the concrete dragged state. -/
theorem claim_C1_witness :
    (endDrag c1state).draggedPiece = none ∧
    (endDrag c1state).hoveredSlot = none ∧
    (∀ hid hsl, c1state.hoveredSlot = some hid →
      c1state.slots.find? (fun t => t.id == hid) = some hsl →
      (hsl.occupied = false →
        (∀ q ∈ (endDrag c1state).pieces, q.id = "A" →
          q.position = hsl.position ∧ q.slotId = some hsl.id) ∧
        (∀ t ∈ (endDrag c1state).slots, t.id = hsl.id →
          t.occupied = true ∧ t.pieceId = some "A")) ∧
      (hsl.occupied = true →
        (∀ q ∈ (endDrag c1state).pieces, q.id = "A" →
          q.position = q.stagingPosition ∧ q.slotId = none) ∧
        (endDrag c1state).slots = c1state.slots)) ∧
    (c1state.hoveredSlot = none →
      (∀ q ∈ (endDrag c1state).pieces, q.id = "A" →
        q.position = q.stagingPosition ∧ q.slotId = none) ∧
      (endDrag c1state).slots = c1state.slots) ∧
    (∀ q1 ∈ (endDrag c1state).pieces, ∀ q2 ∈ (endDrag c1state).pieces,
      ∀ sid : String,
      q1.slotId = some sid → q2.slotId = some sid → q1 = q2) :=
  claim_C1 c1state "A" c1piece c1state_inv rfl rfl

/-- C5: the hover resolver scans the registry in order and returns the first
slot whose ground-plane Euclidean distance (x and z components only) to the
cursor is strictly below the 0.8 threshold, or `none` when no slot qualifies;
the vertical components of both the cursor and the slots are ignored, and as
a pure function it mutates nothing. -/
theorem claim_C5 (pos : Vector3) (slots : List Slot) :
    (∀ sl, detectHoveredSlot pos slots = some sl →
      ∃ l1 l2, slots = l1 ++ sl :: l2 ∧
        slotDistance pos sl < hoverThreshold ∧
        ∀ t ∈ l1, ¬slotDistance pos t < hoverThreshold) ∧
    (detectHoveredSlot pos slots = none ↔
      ∀ t ∈ slots, ¬slotDistance pos t < hoverThreshold) ∧
    (∀ sl : Slot, slotDistance pos sl =
      Real.sqrt ((pos.x - sl.position.x) * (pos.x - sl.position.x) +
        (pos.z - sl.position.z) * (pos.z - sl.position.z))) ∧
    (∀ y2 : ℝ, detectHoveredSlot ⟨pos.x, y2, pos.z⟩ slots =
      detectHoveredSlot pos slots) ∧
    (∀ (sl : Slot) (y2 : ℝ), slotDistance pos
        { sl with position := ⟨sl.position.x, y2, sl.position.z⟩ } =
        slotDistance pos sl) := by
  refine ⟨fun sl h => detectHoveredSlot_eq_some pos slots sl h,
    detectHoveredSlot_eq_none pos slots, fun sl => rfl, ?_, fun sl y2 => rfl⟩
  intro y2
  exact detectHoveredSlot_y_irrel pos.x y2 pos.y pos.z slots

/-- A slot far from the test cursor, for the C5 instance. -/
noncomputable def c5far : Slot :=
  { id := "far", position := ⟨10, 0, 0⟩, occupied := false, pieceId := none }

/-- A slot at the test cursor, for the C5 instance. -/
noncomputable def c5near : Slot :=
  { id := "near", position := ⟨0, 0, 0⟩, occupied := false, pieceId := none }

theorem c5far_not_within :
    ¬slotDistance ⟨0, 0, 0⟩ c5far < hoverThreshold := by
  simp only [slotDistance, c5far, hoverThreshold]
  rw [Real.sqrt_lt' (by norm_num : (0 : ℝ) < 0.8)]
  norm_num

theorem c5near_within :
    slotDistance ⟨0, 0, 0⟩ c5near < hoverThreshold := by
  simp only [slotDistance, c5near, hoverThreshold]
  rw [Real.sqrt_lt' (by norm_num : (0 : ℝ) < 0.8)]
  norm_num

theorem c5_detect :
    detectHoveredSlot ⟨0, 0, 0⟩ [c5far, c5near] = some c5near := by
  rw [detectHoveredSlot_cons, if_neg c5far_not_within,
    detectHoveredSlot_cons, if_pos c5near_within]

/-- Witness for C5: on a far slot followed by a near slot, the resolver skips
the far slot and returns the near one. -/
theorem claim_C5_witness :
    ∃ l1 l2, ([c5far, c5near] : List Slot) = l1 ++ c5near :: l2 ∧
      slotDistance ⟨0, 0, 0⟩ c5near < hoverThreshold ∧
      ∀ t ∈ l1, ¬slotDistance ⟨0, 0, 0⟩ t < hoverThreshold :=
  (claim_C5 ⟨0, 0, 0⟩ [c5far, c5near]).1 c5near c5_detect

theorem startDrag_slotted_eq (s : GameState) (pid : String) (p : Piece)
    (sid : String)
    (hfind : s.pieces.find? (fun q => q.id == pid) = some p)
    (hslot : p.slotId = some sid) :
    startDrag false pid s = { s with
      pieces := s.pieces.map (liftPiece pid p.position),
      slots := s.slots.map (clearSlot sid),
      draggedPiece := some pid } := by
  unfold startDrag
  rw [if_neg Bool.false_ne_true]
  split
  · rename_i hnone
    rw [hfind] at hnone
    exact Option.noConfusion hnone
  · rename_i p2 hp2
    rw [hfind] at hp2
    obtain rfl := Option.some.inj hp2
    split
    · rename_i sid2 hsid2
      rw [hslot] at hsid2
      obtain rfl := Option.some.inj hsid2
      rfl
    · rename_i hsidnone
      rw [hslot] at hsidnone
      exact Option.noConfusion hsidnone

/-- C6: `startDrag` (guard flag clear) on an existing piece that occupies a
slot clears that slot's occupancy, clears the piece's slot reference, raises
the piece by exactly +1.0 vertically from its current position, and marks it
dragged; all other pieces and slots are unchanged in place. -/
theorem claim_C6 (s : GameState) (pid : String) (p : Piece) (sid : String)
    (hnd : (s.pieces.map Piece.id).Nodup)
    (hfind : s.pieces.find? (fun q => q.id == pid) = some p)
    (hslot : p.slotId = some sid) :
    (startDrag false pid s).draggedPiece = some pid ∧
    (∀ sl ∈ (startDrag false pid s).slots, sl.id = sid →
      sl.occupied = false ∧ sl.pieceId = none) ∧
    (∀ q ∈ (startDrag false pid s).pieces, q.id = pid →
      q.slotId = none ∧
      q.position = ⟨p.position.x, p.position.y + 1.0, p.position.z⟩) ∧
    (∀ (i : ℕ) (q : Piece), s.pieces[i]? = some q → q.id ≠ pid →
      (startDrag false pid s).pieces[i]? = some q) ∧
    (∀ (i : ℕ) (sl : Slot), s.slots[i]? = some sl → sl.id ≠ sid →
      (startDrag false pid s).slots[i]? = some sl) := by
  obtain ⟨hmem, hpid⟩ := find?_piece_mem hfind
  rw [startDrag_slotted_eq s pid p sid hfind hslot]
  refine ⟨rfl, ?_, ?_, ?_, ?_⟩
  · intro sl hsl hid
    obtain ⟨sl0, hsl0, rfl⟩ := List.mem_map.mp hsl
    rw [clearSlot_id] at hid
    exact ⟨clearSlot_occupied_of_eq sid sl0 hid,
      clearSlot_pieceId_of_eq sid sl0 hid⟩
  · intro q hq hqid
    obtain ⟨q0, hq0, rfl⟩ := List.mem_map.mp hq
    rw [liftPiece_id] at hqid
    have hq0p : q0 = p := eq_piece_of_id hnd hq0 hmem (hqid.trans hpid.symm)
    subst hq0p
    exact ⟨liftPiece_slotId_of_eq pid q0.position q0 hqid,
      liftPiece_position_of_eq pid q0.position q0 hqid⟩
  · intro i q hi hne
    show (s.pieces.map (liftPiece pid p.position))[i]? = some q
    rw [List.getElem?_map, hi]
    simp only [Option.map_some']
    rw [liftPiece_ne pid p.position q hne]
  · intro i sl hi hne
    show (s.slots.map (clearSlot sid))[i]? = some sl
    rw [List.getElem?_map, hi]
    simp only [Option.map_some']
    rw [clearSlot_ne sid sl hne]

/-- A one-piece state in which piece "B" occupies slot "s1"; the concrete
instance for C6. -/
noncomputable def c6piece : Piece :=
  { id := "B", color := .blue, shape := .square, position := ⟨1, 0, 1⟩,
    slotId := some "s1", stagingPosition := ⟨7, 0, 0⟩,
    originalPosition := none }

/-- The slot occupied by the C6 instance piece. -/
noncomputable def c6slot : Slot :=
  { id := "s1", position := ⟨1, 0, 1⟩, occupied := true, pieceId := some "B" }

/-- The C6 instance state. -/
noncomputable def c6state : GameState :=
  { pieces := [c6piece], slots := [c6slot], draggedPiece := none,
    hoveredSlot := none, hoveredPiece := none }

/-- Witness for C6 at the concrete slotted state. -/
theorem claim_C6_witness :
    (startDrag false "B" c6state).draggedPiece = some "B" ∧
    (∀ sl ∈ (startDrag false "B" c6state).slots, sl.id = "s1" →
      sl.occupied = false ∧ sl.pieceId = none) ∧
    (∀ q ∈ (startDrag false "B" c6state).pieces, q.id = "B" →
      q.slotId = none ∧
      q.position =
        ⟨c6piece.position.x, c6piece.position.y + 1.0, c6piece.position.z⟩) ∧
    (∀ (i : ℕ) (q : Piece), c6state.pieces[i]? = some q → q.id ≠ "B" →
      (startDrag false "B" c6state).pieces[i]? = some q) ∧
    (∀ (i : ℕ) (sl : Slot), c6state.slots[i]? = some sl → sl.id ≠ "s1" →
      (startDrag false "B" c6state).slots[i]? = some sl) :=
  claim_C6 c6state "B" c6piece "s1" (by decide) rfl rfl

/-- The rotated midpoint of slots 6 and 7 on the ground plane (grid point
(-0.6, 0) before rotation). -/
noncomputable def c4cursor : Vector3 :=
  ⟨rotatedX (-(3 / 5)) 0, 0, rotatedZ (-(3 / 5)) 0⟩

/-- Slot 6 of the generated board. -/
noncomputable def c4slot6 : Slot := mkBoardSlot ("slot-6", -spacing, 0)

/-- Slot 7 of the generated board. -/
noncomputable def c4slot7 : Slot := mkBoardSlot ("slot-7", 0, 0)

theorem c4slot6_mem : c4slot6 ∈ generateBoardSlots := by
  unfold generateBoardSlots c4slot6
  refine List.mem_map_of_mem mkBoardSlot ?_
  unfold slotGrid
  exact List.mem_cons_of_mem _ (List.mem_cons_of_mem _ (List.mem_cons_of_mem _
    (List.mem_cons_of_mem _ (List.mem_cons_of_mem _
      (List.mem_cons_self _ _)))))

theorem c4slot7_mem : c4slot7 ∈ generateBoardSlots := by
  unfold generateBoardSlots c4slot7
  refine List.mem_map_of_mem mkBoardSlot ?_
  unfold slotGrid
  exact List.mem_cons_of_mem _ (List.mem_cons_of_mem _ (List.mem_cons_of_mem _
    (List.mem_cons_of_mem _ (List.mem_cons_of_mem _ (List.mem_cons_of_mem _
      (List.mem_cons_self _ _))))))

/-- Hover distance from a rotated cursor point to a generated slot collapses
to the unrotated grid distance. -/
theorem slotDistance_rotated (a b : ℚ) (e : String × ℚ × ℚ) :
    slotDistance ⟨rotatedX a b, 0, rotatedZ a b⟩ (mkBoardSlot e) =
      Real.sqrt (((a : ℝ) - (e.2.1 : ℝ)) ^ 2 + ((b : ℝ) - (e.2.2 : ℝ)) ^ 2) := by
  show Real.sqrt
      ((rotatedX a b - rotatedX e.2.1 e.2.2) *
        (rotatedX a b - rotatedX e.2.1 e.2.2) +
       (rotatedZ a b - rotatedZ e.2.1 e.2.2) *
        (rotatedZ a b - rotatedZ e.2.1 e.2.2)) = _
  rw [← pow_two, ← pow_two, rotated_dist]

theorem c4slot6_within : slotDistance c4cursor c4slot6 < hoverThreshold := by
  show slotDistance ⟨rotatedX (-(3 / 5)) 0, 0, rotatedZ (-(3 / 5)) 0⟩
    (mkBoardSlot ("slot-6", -spacing, 0)) < hoverThreshold
  rw [slotDistance_rotated,
    Real.sqrt_lt' (show (0 : ℝ) < hoverThreshold by norm_num [hoverThreshold])]
  push_cast
  norm_num [spacing, hoverThreshold]

theorem c4slot7_within : slotDistance c4cursor c4slot7 < hoverThreshold := by
  show slotDistance ⟨rotatedX (-(3 / 5)) 0, 0, rotatedZ (-(3 / 5)) 0⟩
    (mkBoardSlot ("slot-7", 0, 0)) < hoverThreshold
  rw [slotDistance_rotated,
    Real.sqrt_lt' (show (0 : ℝ) < hoverThreshold by norm_num [hoverThreshold])]
  push_cast
  norm_num [hoverThreshold]

theorem c4slots_ne : c4slot6 ≠ c4slot7 := by
  intro h
  have hid : ("slot-6" : String) = "slot-7" := congrArg Slot.id h
  simp at hid

/-- C4 counterexample: at the rotated midpoint of adjacent slots 6 and 7
(0.6 units from each), both slots lie strictly within the 0.8 hover radius,
so "at most one of the 13 slots within the radius" is false. -/
theorem claim_C4_counterexample :
    ¬(∀ pos : Vector3, ∀ s1 ∈ generateBoardSlots, ∀ s2 ∈ generateBoardSlots,
      slotDistance pos s1 < hoverThreshold →
      slotDistance pos s2 < hoverThreshold → s1 = s2) := by
  intro hall
  exact c4slots_ne
    (hall c4cursor c4slot6 c4slot6_mem c4slot7 c4slot7_mem
      c4slot6_within c4slot7_within)

/-- C4 amended: for every ground-plane cursor coordinate at most one
generated slot lies within HALF the slot pitch (0.6 units); the actual 0.8
radius exceeds half of the 1.2-unit pitch, so two adjacent slots can both
qualify for the same cursor position (see the counterexample). -/
theorem claim_C4_amended (pos : Vector3) :
    ∀ s1 ∈ generateBoardSlots, ∀ s2 ∈ generateBoardSlots,
      slotDistance pos s1 < 0.6 → slotDistance pos s2 < 0.6 → s1 = s2 := by
  intro s1 h1 s2 h2 hd1 hd2
  obtain ⟨e1, he1, rfl⟩ := List.mem_map.mp h1
  obtain ⟨e2, he2, rfl⟩ := List.mem_map.mp h2
  by_cases heq : e1 = e2
  · rw [heq]
  · exfalso
    have hsym : Symmetric (fun e1 e2 : String × ℚ × ℚ =>
        (e1.2.1 - e2.2.1) * (e1.2.1 - e2.2.1) +
          (e1.2.2 - e2.2.2) * (e1.2.2 - e2.2.2) ≥ spacing * spacing) := by
      intro a b hab
      have hx : (b.2.1 - a.2.1) * (b.2.1 - a.2.1) =
          (a.2.1 - b.2.1) * (a.2.1 - b.2.1) := by ring
      have hz : (b.2.2 - a.2.2) * (b.2.2 - a.2.2) =
          (a.2.2 - b.2.2) * (a.2.2 - b.2.2) := by ring
      rw [hx, hz]
      exact hab
    have hsep := slotGrid_separation.forall hsym he1 he2 heq
    have hq1 : (pos.x - rotatedX e1.2.1 e1.2.2) *
          (pos.x - rotatedX e1.2.1 e1.2.2) +
        (pos.z - rotatedZ e1.2.1 e1.2.2) *
          (pos.z - rotatedZ e1.2.1 e1.2.2) < 0.6 ^ 2 :=
      (Real.sqrt_lt' (by norm_num : (0 : ℝ) < 0.6)).mp hd1
    have hq2 : (pos.x - rotatedX e2.2.1 e2.2.2) *
          (pos.x - rotatedX e2.2.1 e2.2.2) +
        (pos.z - rotatedZ e2.2.1 e2.2.2) *
          (pos.z - rotatedZ e2.2.1 e2.2.2) < 0.6 ^ 2 :=
      (Real.sqrt_lt' (by norm_num : (0 : ℝ) < 0.6)).mp hd2
    have hrot := rotated_dist e1.2.1 e1.2.2 e2.2.1 e2.2.2
    have hsepR : ((e1.2.1 : ℝ) - (e2.2.1 : ℝ)) *
          ((e1.2.1 : ℝ) - (e2.2.1 : ℝ)) +
        ((e1.2.2 : ℝ) - (e2.2.2 : ℝ)) * ((e1.2.2 : ℝ) - (e2.2.2 : ℝ)) ≥
        (spacing : ℝ) * (spacing : ℝ) := by
      exact_mod_cast hsep
    have hsp2 : (spacing : ℝ) * (spacing : ℝ) = 1.44 := by
      norm_num [spacing]
    nlinarith [hq1, hq2, hrot, hsepR, hsp2,
      sq_nonneg ((pos.x - rotatedX e1.2.1 e1.2.2) +
        (pos.x - rotatedX e2.2.1 e2.2.2)),
      sq_nonneg ((pos.z - rotatedZ e1.2.1 e1.2.2) +
        (pos.z - rotatedZ e2.2.1 e2.2.2))]

/-- Witness for the amended C4: slot 7's own position is within 0.6 of slot 7
and of no other slot. -/
theorem claim_C4_witness :
    slotDistance c4slot7.position c4slot7 < 0.6 ∧ c4slot7 = c4slot7 :=
  ⟨(Real.sqrt_lt' (by norm_num : (0 : ℝ) < 0.6)).mpr (by ring_nf; norm_num),
    claim_C4_amended c4slot7.position c4slot7 c4slot7_mem c4slot7 c4slot7_mem
      ((Real.sqrt_lt' (by norm_num : (0 : ℝ) < 0.6)).mpr
        (by ring_nf; norm_num))
      ((Real.sqrt_lt' (by norm_num : (0 : ℝ) < 0.6)).mpr
        (by ring_nf; norm_num))⟩

/-- An occupied slot referencing piece "B", for the C10 instance. -/
noncomputable def c10slot : Slot :=
  { id := "s1", position := ⟨0, 0, 0⟩, occupied := true, pieceId := some "B" }

/-- The dragged piece of the C10 instance. -/
noncomputable def c10piece : Piece :=
  { id := "A", color := .red, shape := .round, position := ⟨3, 1, 3⟩,
    slotId := none, stagingPosition := ⟨5, 0, 5⟩, originalPosition := none }

/-- C10 instance: piece "A" dragged while slot "s1" is occupied by "B". -/
noncomputable def c10state : GameState :=
  { pieces := [c10piece], slots := [c10slot], draggedPiece := some "A",
    hoveredSlot := none, hoveredPiece := none }

/-- The dragged piece after the cursor moves to the origin. -/
noncomputable def c10moved : Piece :=
  { c10piece with position := ⟨0, 1.0, 0⟩ }

theorem c10slot_within : slotDistance ⟨0, 0, 0⟩ c10slot < hoverThreshold := by
  simp only [slotDistance, c10slot, hoverThreshold]
  rw [Real.sqrt_lt' (by norm_num : (0 : ℝ) < 0.8)]
  norm_num

theorem c10_detect :
    detectHoveredSlot ⟨0, 0, 0⟩ [c10slot] = some c10slot := by
  rw [detectHoveredSlot_cons, if_pos c10slot_within]

/-- The C10 state after the cursor moves to the origin: the occupied slot is
hovered. -/
noncomputable def c10state2 : GameState :=
  { pieces := [c10moved], slots := [c10slot], draggedPiece := some "A",
    hoveredSlot := some "s1", hoveredPiece := none }

theorem c10_update_eq : updateDragPosition 0 0 c10state = c10state2 := by
  have h0 : updateDragPosition 0 0 c10state =
      { pieces := [c10moved], slots := [c10slot], draggedPiece := some "A",
        hoveredSlot := (detectHoveredSlot ⟨0, 0, 0⟩ [c10slot]).map Slot.id,
        hoveredPiece := none } := rfl
  rw [h0, c10_detect]
  rfl

theorem c10_endDrag_eq :
    endDrag c10state2 =
    { pieces := [rollbackPiece "A" c10moved], slots := [c10slot],
      draggedPiece := none, hoveredSlot := none, hoveredPiece := none } :=
  rfl

/-- C10: hover resolution does not filter by occupancy — any rewrite of the
slots that preserves ids and positions (such as toggling `occupied` or
`pieceId`) leaves the resolved hover id unchanged; concretely, while piece
"A" is dragged, `updateDragPosition` sets `hoveredSlot` to slot "s1" even
though "s1" is occupied by "B", and only `endDrag` resolves the conflict,
rolling the piece back and leaving the slot untouched. -/
theorem claim_C10 :
    (∀ (pos : Vector3) (slots : List Slot) (f : Slot → Slot),
      (∀ sl, (f sl).id = sl.id ∧ (f sl).position = sl.position) →
      (detectHoveredSlot pos (slots.map f)).map Slot.id =
        (detectHoveredSlot pos slots).map Slot.id) ∧
    c10slot.occupied = true ∧
    (updateDragPosition 0 0 c10state).hoveredSlot = some "s1" ∧
    (∀ q ∈ (endDrag (updateDragPosition 0 0 c10state)).pieces,
      q.position = q.stagingPosition ∧ q.slotId = none) ∧
    (endDrag (updateDragPosition 0 0 c10state)).slots = [c10slot] := by
  refine ⟨fun pos slots f hf =>
    detectHoveredSlot_occupancy_irrel pos slots f hf, rfl, ?_, ?_, ?_⟩
  · rw [c10_update_eq]
    rfl
  · rw [c10_update_eq, c10_endDrag_eq]
    intro q hq
    have hq' : q = rollbackPiece "A" c10moved := List.mem_singleton.mp hq
    subst hq'
    exact ⟨rfl, rfl⟩
  · rw [c10_update_eq, c10_endDrag_eq]

/-- Witness for C10: clearing the occupancy of the occupied slot does not
change the resolved hover id. -/
theorem claim_C10_witness :
    (detectHoveredSlot ⟨0, 0, 0⟩
        ([c10slot].map (fun sl => { sl with occupied := false }))).map
      Slot.id =
      (detectHoveredSlot ⟨0, 0, 0⟩ [c10slot]).map Slot.id :=
  claim_C10.1 ⟨0, 0, 0⟩ [c10slot] (fun sl => { sl with occupied := false })
    (fun _ => ⟨rfl, rfl⟩)

end DiamondQuest
